import Mathlib

/- Verification development for the cci-api service (src/app.py): a Flask +
SQLAlchemy CRUD interface over three tables (experiment, product, file) with
one filtering query on files.  The datastore is modelled as explicit lists
of rows; each route handler becomes a function from the store (and the
request JSON) to the resulting store and an HTTP-level outcome. -/

namespace CCI

/-- `datetime` values as stored in the `file.dateTime` column.  The source
builds them with `datetime.strptime(s, '%Y-%m-%d %H:%M:%S')`. -/
structure DateTime where
  year : Nat
  month : Nat
  day : Nat
  hour : Nat
  minute : Nat
  second : Nat
  deriving DecidableEq

/-- Chronological key: field-lexicographic order on (year, month, day, hour,
minute, second); every in-range component except the year is below 100. -/
def DateTime.key (t : DateTime) : Nat :=
  ((((t.year * 100 + t.month) * 100 + t.day) * 100 + t.hour) * 100 + t.minute) * 100
    + t.second

/-- `a <= b` on timestamps, as the database evaluates `File.dateTime >= s`
and `File.dateTime <= e` against `'%Y-%m-%d %H:%M:%S'`-formatted bounds (the
fixed-width textual format makes that comparison chronological). -/
def DateTime.le (a b : DateTime) : Bool := decide (a.key ≤ b.key)

/-- `datetime.min` under `strftime(date_format)`: the default `start_date`. -/
def datetime_min : DateTime := ⟨1, 1, 1, 0, 0, 0⟩

/-- `datetime.max` under `strftime(date_format)` (microseconds are not part
of the format): the default `end_date`. -/
def datetime_max : DateTime := ⟨9999, 12, 31, 23, 59, 59⟩

/-- One ASCII digit. -/
def readDigit (c : Char) : Option Nat :=
  if c.isDigit then some (c.toNat - 48) else none

/-- The `%Y` directive: exactly four digits. -/
def read4 : List Char → Option (Nat × List Char)
  | a :: b :: c :: d :: r => do
    let x ← readDigit a
    let y ← readDigit b
    let z ← readDigit c
    let w ← readDigit d
    pure (((x * 10 + y) * 10 + z) * 10 + w, r)
  | _ => none

/-- The `%m`, `%d`, `%H`, `%M`, `%S` directives: one or two digits, matched
greedily. -/
def read2 : List Char → Option (Nat × List Char)
  | [] => none
  | c :: r =>
    match readDigit c with
    | none => none
    | some x =>
      match r with
      | [] => some (x, [])
      | d :: r2 =>
        match readDigit d with
        | none => some (x, d :: r2)
        | some y => some (x * 10 + y, r2)

/-- A literal character of the format string. -/
def expectChar (c : Char) : List Char → Option (List Char)
  | [] => none
  | d :: r => if d = c then some r else none

def isLeapYear (y : Nat) : Bool := (y % 4 == 0 && y % 100 != 0) || y % 400 == 0

def daysInMonth (y m : Nat) : Nat :=
  if m == 2 then if isLeapYear y then 29 else 28
  else if m == 4 || m == 6 || m == 9 || m == 11 then 30
  else 31

/-- `datetime.strptime(s, date_format)` with `date_format` equal to
`'%Y-%m-%d %H:%M:%S'`.  `none` models the `ValueError` the Python call
raises on text that does not match the format, leaves trailing characters,
or denotes an out-of-range date (`datetime` requires `1 <= year`,
`1 <= month <= 12`, a day valid for the month, and in-range time fields). -/
def strptime (s : String) : Option DateTime :=
  match read4 s.toList with
  | none => none
  | some (y, r0) =>
  match expectChar '-' r0 with
  | none => none
  | some r1 =>
  match read2 r1 with
  | none => none
  | some (mo, r2) =>
  match expectChar '-' r2 with
  | none => none
  | some r3 =>
  match read2 r3 with
  | none => none
  | some (d, r4) =>
  match expectChar ' ' r4 with
  | none => none
  | some r5 =>
  match read2 r5 with
  | none => none
  | some (h, r6) =>
  match expectChar ':' r6 with
  | none => none
  | some r7 =>
  match read2 r7 with
  | none => none
  | some (mi, r8) =>
  match expectChar ':' r8 with
  | none => none
  | some r9 =>
  match read2 r9 with
  | none => none
  | some (se, r10) =>
  if r10.isEmpty && 1 ≤ y && y ≤ 9999 && 1 ≤ mo && mo ≤ 12 && 1 ≤ d
      && d ≤ daysInMonth y mo && h ≤ 23 && mi ≤ 59 && se ≤ 59 then
    some ⟨y, mo, d, h, mi, se⟩
  else
    none

/-- Zero-padded two-digit rendering of a timestamp field. -/
def pad2 (n : Nat) : List Char := [Char.ofNat (48 + n / 10 % 10), Char.ofNat (48 + n % 10)]

/-- Zero-padded four-digit rendering of the year. -/
def pad4 (n : Nat) : List Char :=
  [Char.ofNat (48 + n / 1000 % 10), Char.ofNat (48 + n / 100 % 10),
   Char.ofNat (48 + n / 10 % 10), Char.ofNat (48 + n % 10)]

/-- `str(self.dateTime)` as used by `File.serialize`: the canonical
`YYYY-MM-DD HH:MM:SS` rendering of the stored timestamp. -/
def strDateTime (t : DateTime) : String :=
  String.mk (pad4 t.year ++ '-' :: pad2 t.month ++ '-' :: pad2 t.day ++ ' ' :: pad2 t.hour
    ++ ':' :: pad2 t.minute ++ ':' :: pad2 t.second)

/-- A row of the `experiment` table. -/
structure Experiment where
  id : Nat
  name : String
  desc : String
  deriving DecidableEq

/-- A row of the `product` table. -/
structure Product where
  id : Nat
  name : String
  desc : String
  experiment_id : Nat
  deriving DecidableEq

/-- A row of the `file` table. -/
structure File where
  id : Nat
  path : String
  dateTime : DateTime
  level : String
  product_id : Nat
  deriving DecidableEq

/-- The dictionary returned by `Experiment.serialize`. -/
structure ExperimentOut where
  id : Nat
  name : String
  desc : String
  deriving DecidableEq

/-- The dictionary returned by `Product.serialize`. -/
structure ProductOut where
  id : Nat
  name : String
  desc : String
  experiment_id : Nat
  deriving DecidableEq

/-- The dictionary returned by `File.serialize`; `dateTime` is rendered with
`str(...)`, so it is a canonical-format string. -/
structure FileOut where
  id : Nat
  path : String
  dateTime : String
  level : String
  product_id : Nat
  deriving DecidableEq

def Experiment.serialize (e : Experiment) : ExperimentOut := ⟨e.id, e.name, e.desc⟩

def Product.serialize (p : Product) : ProductOut := ⟨p.id, p.name, p.desc, p.experiment_id⟩

def File.serialize (f : File) : FileOut :=
  ⟨f.id, f.path, strDateTime f.dateTime, f.level, f.product_id⟩

/-- The relational store: the three tables in their natural (primary-key)
order, together with the next primary key the datastore will assign to each
table (the datastore is the sole id authority). -/
structure Store where
  experiments : List Experiment
  products : List Product
  files : List File
  nextExperimentId : Nat
  nextProductId : Nat
  nextFileId : Nat
  deriving DecidableEq

/-- The datastore invariant: every existing primary key is below the next
key the datastore will assign, so freshly assigned ids are new. -/
def Store.wf (st : Store) : Prop :=
  (∀ r ∈ st.experiments, r.id < st.nextExperimentId) ∧
    (∀ r ∈ st.products, r.id < st.nextProductId) ∧
    (∀ r ∈ st.files, r.id < st.nextFileId)

instance (st : Store) : Decidable st.wf := by
  unfold Store.wf; infer_instance

/-- The outcome of a request that does not end in a 200/201 response.
`badRequest` is `abort(400)`; `notFound` would be an explicit `abort(404)`
(the source never issues one); `unhandled` is an uncaught Python exception
(`AttributeError` from dereferencing a `None` lookup, `ValueError` from
`strptime`, or the session error from `db.session.delete(None)`), which the
framework surfaces as a 500 server fault, not a handled 4xx response. -/
inductive Err where
  | badRequest
  | notFound
  | unhandled
  deriving DecidableEq

instance {ε α : Type} [DecidableEq ε] [DecidableEq α] : DecidableEq (Except ε α) :=
  fun a b =>
    match a, b with
    | .error e1, .error e2 =>
      if h : e1 = e2 then .isTrue (by rw [h]) else .isFalse (by simp [h])
    | .ok v1, .ok v2 =>
      if h : v1 = v2 then .isTrue (by rw [h]) else .isFalse (by simp [h])
    | .error _, .ok _ => .isFalse (by simp)
    | .ok _, .error _ => .isFalse (by simp)

/-- JSON body of experiment create/update requests: each field is `some`
exactly when the corresponding key is present in `request.json`. -/
structure ExperimentInput where
  name : Option String := none
  desc : Option String := none
  deriving DecidableEq

/-- JSON body of product create/update requests. -/
structure ProductInput where
  name : Option String := none
  desc : Option String := none
  experiment_id : Option Nat := none
  deriving DecidableEq

/-- JSON body of file create/update requests; `dateTime` is raw text that
the handlers pass to `strptime`. -/
structure FileInput where
  path : Option String := none
  dateTime : Option String := none
  level : Option String := none
  product_id : Option Nat := none
  deriving DecidableEq

/-- JSON body of the `GET /files/` filter request.  The two date bounds are
carried as timestamps: the handler forwards their canonical-format text
unparsed into the SQL comparison, where the fixed-width format orders
exactly as the timestamp does. -/
structure FilterArgs where
  start_date : Option DateTime := none
  end_date : Option DateTime := none
  product_ids : Option (List Nat) := none
  experiment_ids : Option (List Nat) := none
  deriving DecidableEq

/-- Python truthiness of `request.json` for a body that was attached: a dict
with no keys is falsy, so `if not request.json` also fires on `{}`. -/
def FilterArgs.isTruthy (a : FilterArgs) : Bool :=
  a.start_date.isSome || a.end_date.isSome || a.product_ids.isSome || a.experiment_ids.isSome

/-- `if not request.json` over an optional body. -/
def bodyTruthy : Option FilterArgs → Bool
  | none => false
  | some a => a.isTruthy

-- Experiment routes

/-- `GET /experiments/<id>`: `Experiment.query.get(id).serialize()` with no
existence check — a missing id means `None.serialize()`, an uncaught
`AttributeError`. -/
def get_experiment (st : Store) (id : Nat) : Except Err ExperimentOut :=
  match st.experiments.find? (fun r => decide (r.id = id)) with
  | none => .error .unhandled
  | some e => .ok e.serialize

/-- `PUT /experiments/<id>`: fetch, overwrite each field present in the
JSON (`request.json.get(key, current)` keeps the current value when the key
is absent), commit.  A missing id means attribute assignment on `None`. -/
def update_experiment (st : Store) (id : Nat) (j : ExperimentInput) :
    Store × Except Err ExperimentOut :=
  match st.experiments.find? (fun r => decide (r.id = id)) with
  | none => (st, .error .unhandled)
  | some e =>
    let e' : Experiment := ⟨e.id, j.name.getD e.name, j.desc.getD e.desc⟩
    ({ st with experiments := st.experiments.map fun r => if r.id = id then e' else r },
      .ok e'.serialize)

/-- `DELETE /experiments/<id>`: `db.session.delete(Experiment.query.get(id))`
— deleting a `None` lookup raises an uncaught session error. -/
def delete_experiment (st : Store) (id : Nat) : Store × Except Err Bool :=
  match st.experiments.find? (fun r => decide (r.id = id)) with
  | none => (st, .error .unhandled)
  | some _ =>
    ({ st with experiments := st.experiments.filter fun r => !decide (r.id = id) }, .ok true)

/-- `POST /experiments/`: `abort(400)` when the body is falsy or `name` is
absent; otherwise insert with `desc` defaulted to the empty string. -/
def create_experiment (st : Store) (body : Option ExperimentInput) :
    Store × Except Err ExperimentOut :=
  match body with
  | none => (st, .error .badRequest)
  | some j =>
    match j.name with
    | none => (st, .error .badRequest)
    | some name =>
      let e : Experiment := ⟨st.nextExperimentId, name, j.desc.getD ("")⟩
      ({ st with
          experiments := st.experiments ++ [e]
          nextExperimentId := st.nextExperimentId + 1 },
        .ok e.serialize)

-- Product routes

/-- `GET /products/<id>`. -/
def get_product (st : Store) (id : Nat) : Except Err ProductOut :=
  match st.products.find? (fun r => decide (r.id = id)) with
  | none => .error .unhandled
  | some p => .ok p.serialize

/-- `PUT /products/<id>`. -/
def update_product (st : Store) (id : Nat) (j : ProductInput) :
    Store × Except Err ProductOut :=
  match st.products.find? (fun r => decide (r.id = id)) with
  | none => (st, .error .unhandled)
  | some p =>
    let p' : Product :=
      ⟨p.id, j.name.getD p.name, j.desc.getD p.desc, j.experiment_id.getD p.experiment_id⟩
    ({ st with products := st.products.map fun r => if r.id = id then p' else r },
      .ok p'.serialize)

/-- `DELETE /products/<id>`. -/
def delete_product (st : Store) (id : Nat) : Store × Except Err Bool :=
  match st.products.find? (fun r => decide (r.id = id)) with
  | none => (st, .error .unhandled)
  | some _ =>
    ({ st with products := st.products.filter fun r => !decide (r.id = id) }, .ok true)

/-- `POST /products/`: requires `name` and `experiment_id`. -/
def create_product (st : Store) (body : Option ProductInput) :
    Store × Except Err ProductOut :=
  match body with
  | none => (st, .error .badRequest)
  | some j =>
    match j.name, j.experiment_id with
    | some name, some eid =>
      let p : Product := ⟨st.nextProductId, name, j.desc.getD (""), eid⟩
      ({ st with
          products := st.products ++ [p]
          nextProductId := st.nextProductId + 1 },
        .ok p.serialize)
    | _, _ => (st, .error .badRequest)

-- File routes

/-- `GET /files/<id>`. -/
def get_file (st : Store) (id : Nat) : Except Err FileOut :=
  match st.files.find? (fun r => decide (r.id = id)) with
  | none => .error .unhandled
  | some f => .ok f.serialize

/-- `PUT /files/<id>`: fields present in the JSON are overwritten; a present
`dateTime` is re-parsed with `strptime`, whose `ValueError` propagates
uncaught before any commit, so the stored row is unchanged on that path. -/
def update_file (st : Store) (id : Nat) (j : FileInput) : Store × Except Err FileOut :=
  match st.files.find? (fun r => decide (r.id = id)) with
  | none => (st, .error .unhandled)
  | some f =>
    match j.dateTime with
    | some s =>
      match strptime s with
      | none => (st, .error .unhandled)
      | some t =>
        let f' : File := ⟨f.id, j.path.getD f.path, t, j.level.getD f.level,
          j.product_id.getD f.product_id⟩
        ({ st with files := st.files.map fun r => if r.id = id then f' else r },
          .ok f'.serialize)
    | none =>
      let f' : File := ⟨f.id, j.path.getD f.path, f.dateTime, j.level.getD f.level,
        j.product_id.getD f.product_id⟩
      ({ st with files := st.files.map fun r => if r.id = id then f' else r },
        .ok f'.serialize)

/-- `DELETE /files/<id>`. -/
def delete_file (st : Store) (id : Nat) : Store × Except Err Bool :=
  match st.files.find? (fun r => decide (r.id = id)) with
  | none => (st, .error .unhandled)
  | some _ =>
    ({ st with files := st.files.filter fun r => !decide (r.id = id) }, .ok true)

/-- `POST /files/`: requires `path` and `product_id`; `dateTime` defaults to
the sentinel `'1900-01-01 00:00:00'` and `level` to the empty string; the
`File` constructor parses `dateTime` with `strptime` (uncaught `ValueError`
on malformed text, before any insert). -/
def create_file (st : Store) (body : Option FileInput) : Store × Except Err FileOut :=
  match body with
  | none => (st, .error .badRequest)
  | some j =>
    match j.path, j.product_id with
    | some path, some pid =>
      match strptime (j.dateTime.getD ("1900-01-01 00:00:00")) with
      | none => (st, .error .unhandled)
      | some t =>
        let f : File := ⟨st.nextFileId, path, t, j.level.getD (""), pid⟩
        ({ st with files := st.files ++ [f], nextFileId := st.nextFileId + 1 },
          .ok f.serialize)
    | _, _ => (st, .error .badRequest)

/-- The `products` list built by `GET /files/`: the products matching
`product_ids` (when given), then, for each experiment matching
`experiment_ids` in table order, that experiment's related products
(`products = products + expt.products`). -/
def selectedProducts (st : Store) (args : FilterArgs) : List Product :=
  let products0 : List Product :=
    match args.product_ids with
    | some ids => st.products.filter fun p => decide (p.id ∈ ids)
    | none => []
  match args.experiment_ids with
  | some ids =>
    (st.experiments.filter fun x => decide (x.id ∈ ids)).foldl
      (fun acc x => acc ++ (st.products.filter fun p => decide (p.experiment_id = x.id)))
      products0
  | none => products0

/-- The `file_ids` list built by `GET /files/`: for each selected product,
the ids of its files. -/
def collectFileIds (st : Store) (ps : List Product) : List Nat :=
  ps.foldl
    (fun acc p => acc ++ ((st.files.filter fun f => decide (f.product_id = p.id)).map File.id))
    []

/-- `GET /files/`: with a falsy body (`not request.json`), every file row;
otherwise the files whose id is among `file_ids` and whose `dateTime` lies
between the supplied bounds (defaulted to `datetime.min` / `datetime.max`),
both comparisons inclusive (`>=` and `<=`). -/
def get_files (st : Store) (body : Option FilterArgs) : List FileOut :=
  match body with
  | none => st.files.map File.serialize
  | some args =>
    if args.isTruthy then
      let s := args.start_date.getD datetime_min
      let e := args.end_date.getD datetime_max
      let ids := collectFileIds st (selectedProducts st args)
      (st.files.filter fun f =>
        decide (f.id ∈ ids) && DateTime.le s f.dateTime && DateTime.le f.dateTime e).map
        File.serialize
    else
      st.files.map File.serialize

/-- Spec-side (from the spec's words): a product is selected by the filter
payload when its id is one of `product_ids`, or it is related to an
experiment whose id is one of `experiment_ids`; an absent key selects
nothing. -/
def specSelectedProduct (st : Store) (args : FilterArgs) (p : Product) : Prop :=
  p.id ∈ args.product_ids.getD [] ∨
    ∃ x ∈ st.experiments, x.id ∈ args.experiment_ids.getD [] ∧ p.experiment_id = x.id

instance (st : Store) (args : FilterArgs) (p : Product) :
    Decidable (specSelectedProduct st args p) := by
  unfold specSelectedProduct; infer_instance

/-- Spec-side: the candidate file-id set — the union, over every candidate
product, of the ids of that product's files. -/
def specCandidateFileId (st : Store) (args : FilterArgs) (i : Nat) : Prop :=
  ∃ f ∈ st.files, ∃ p ∈ st.products,
    specSelectedProduct st args p ∧ f.product_id = p.id ∧ f.id = i

instance (st : Store) (args : FilterArgs) (i : Nat) :
    Decidable (specCandidateFileId st args i) := by
  unfold specCandidateFileId; infer_instance

/-- Spec-side final result of the file filter: every file whose id is in
the candidate file-id set and whose `dateTime` falls within
`[start_date, end_date]`, inclusive on both ends. -/
def specFilterResult (st : Store) (args : FilterArgs) : List FileOut :=
  (st.files.filter fun f =>
    decide (specCandidateFileId st args f.id)
      && DateTime.le (args.start_date.getD datetime_min) f.dateTime
      && DateTime.le f.dateTime (args.end_date.getD datetime_max)).map File.serialize

/-- `get_files` with the candidate product collection and the candidate
file-id collection de-duplicated before the final membership filter. -/
def get_files_dedup (st : Store) (body : Option FilterArgs) : List FileOut :=
  match body with
  | none => st.files.map File.serialize
  | some args =>
    if args.isTruthy then
      let s := args.start_date.getD datetime_min
      let e := args.end_date.getD datetime_max
      let ids := (collectFileIds st (selectedProducts st args).dedup).dedup
      (st.files.filter fun f =>
        decide (f.id ∈ ids) && DateTime.le s f.dateTime && DateTime.le f.dateTime e).map
        File.serialize
    else
      st.files.map File.serialize

/-- A concrete store for witnesses: experiment 1 owns product 1, which owns
file 1 at `2020-01-01 00:00:00` and file 2 at `2021-06-01 00:00:00`. -/
def demoStore : Store :=
  ⟨[⟨1, "E1", "exp one"⟩], [⟨1, "P1", "prd one", 1⟩],
    [⟨1, "f1", ⟨2020, 1, 1, 0, 0, 0⟩, "L2", 1⟩, ⟨2, "f2", ⟨2021, 6, 1, 0, 0, 0⟩, "L2", 1⟩],
    2, 2, 3⟩

-- Helper lemmas

/-- Membership in a fold that appends one block per element. -/
theorem mem_foldl_append {α β : Type} (g : α → List β) (b : β) :
    ∀ (l : List α) (init : List β),
      b ∈ l.foldl (fun acc x => acc ++ g x) init ↔ b ∈ init ∨ ∃ x ∈ l, b ∈ g x := by
  intro l
  induction l with
  | nil => intro init; simp
  | cons hd tl ih =>
    intro init
    rw [List.foldl_cons, ih]
    simp [or_assoc]

/-- `find?` only depends on the pointwise behaviour of the predicate. -/
theorem find?_congr {α : Type} {p q : α → Bool} :
    ∀ {l : List α}, (∀ a ∈ l, p a = q a) → l.find? p = l.find? q := by
  intro l
  induction l with
  | nil => intro _; rfl
  | cons hd tl ih =>
    intro h
    have hhd := h hd (List.mem_cons_self hd tl)
    by_cases hp : p hd = true
    · rw [List.find?_cons_of_pos _ hp, List.find?_cons_of_pos _ (hhd ▸ hp)]
    · rw [List.find?_cons_of_neg _ hp, List.find?_cons_of_neg _ (hhd ▸ hp),
        ih fun a ha => h a (List.mem_cons_of_mem hd ha)]

/-- The characterization of membership in the `products` list that
`get_files` builds. -/
theorem mem_selectedProducts (st : Store) (args : FilterArgs) (p : Product) :
    p ∈ selectedProducts st args ↔ p ∈ st.products ∧ specSelectedProduct st args p := by
  unfold selectedProducts specSelectedProduct
  cases hp : args.product_ids <;> cases he : args.experiment_ids <;>
    simp [mem_foldl_append, List.mem_filter, and_or_left] <;> aesop

/-- The characterization of membership in the `file_ids` list that
`get_files` builds. -/
theorem mem_collectFileIds (st : Store) (ps : List Product) (i : Nat) :
    i ∈ collectFileIds st ps ↔ ∃ p ∈ ps, ∃ f ∈ st.files, f.product_id = p.id ∧ f.id = i := by
  unfold collectFileIds
  rw [mem_foldl_append]
  simp [List.mem_filter]
  aesop

/-- The computed candidate file-id list realizes the spec-side candidate
file-id set. -/
theorem candidate_iff (st : Store) (args : FilterArgs) (i : Nat) :
    i ∈ collectFileIds st (selectedProducts st args) ↔ specCandidateFileId st args i := by
  rw [mem_collectFileIds]
  unfold specCandidateFileId
  constructor
  · rintro ⟨p, hp, f, hf, hpid, hid⟩
    rw [mem_selectedProducts] at hp
    exact ⟨f, hf, p, hp.1, hp.2, hpid, hid⟩
  · rintro ⟨f, hf, p, hp, hsel, hpid, hid⟩
    exact ⟨p, (mem_selectedProducts st args p).mpr ⟨hp, hsel⟩, f, hf, hpid, hid⟩

/-- C1: for every supplied (truthy) filter payload, `GET /files/` returns
exactly the files whose id lies in the candidate file-id set — the union of
the files of every product selected by `product_ids` plus every product
related to an experiment selected by `experiment_ids` — and whose `dateTime`
lies within `[start_date, end_date]`, inclusive on both ends. -/
theorem get_files_matches_candidate_set_and_range (st : Store) (args : FilterArgs)
    (h : args.isTruthy = true) :
    get_files st (some args) = specFilterResult st args := by
  simp only [get_files, specFilterResult]
  rw [if_pos h]
  apply congrArg
  apply List.filter_congr
  intro f _
  rw [decide_eq_decide.mpr (candidate_iff st args f.id)]

/-- C1 witness: the spec's concrete scenario — experiment 1 has product 1
holding file 1 at `2020-01-01 00:00:00` and file 2 at
`2021-06-01 00:00:00`; filtering with `experiment_ids = [1]` and
`start_date = 2020-06-01 00:00:00` returns only file 2. -/
theorem get_files_matches_candidate_set_and_range_witness :
    FilterArgs.isTruthy ⟨some ⟨2020, 6, 1, 0, 0, 0⟩, none, none, some [1]⟩ = true ∧
      get_files demoStore (some ⟨some ⟨2020, 6, 1, 0, 0, 0⟩, none, none, some [1]⟩) =
        [⟨2, "f2", "2021-06-01 00:00:00", "L2", 1⟩] :=
  ⟨by decide,
    (get_files_matches_candidate_set_and_range demoStore
      ⟨some ⟨2020, 6, 1, 0, 0, 0⟩, none, none, some [1]⟩ (by decide)).trans (by decide)⟩

/-- C2: a supplied filter payload with neither `product_ids` nor
`experiment_ids` (hence at least one date bound, to be truthy) always
yields the empty list, whatever the store holds. -/
theorem date_only_filter_returns_empty (st : Store) (args : FilterArgs)
    (hp : args.product_ids = none) (he : args.experiment_ids = none)
    (ht : args.isTruthy = true) :
    get_files st (some args) = [] := by
  simp only [get_files]
  rw [if_pos ht]
  have hsel : selectedProducts st args = [] := by
    unfold selectedProducts
    rw [hp, he]
  rw [hsel]
  have hids : collectFileIds st [] = [] := rfl
  rw [hids]
  simp

/-- C2 witness: filtering the demo store (which holds files after 2000)
with only `start_date = 2000-01-01 00:00:00` returns nothing. -/
theorem date_only_filter_returns_empty_witness :
    get_files demoStore (some ⟨some ⟨2000, 1, 1, 0, 0, 0⟩, none, none, none⟩) = [] :=
  date_only_filter_returns_empty demoStore ⟨some ⟨2000, 1, 1, 0, 0, 0⟩, none, none, none⟩
    rfl rfl (by decide)

/-- C3: `GET /files/` with no JSON payload attached returns every file row,
unfiltered, regardless of each file's `dateTime`. -/
theorem no_payload_returns_all_files (st : Store) :
    get_files st none = st.files.map File.serialize := rfl

/-- C9: duplicates in the candidate product collection (e.g. a product
reached both via `product_ids` and via one of its experiment's ids) and in
the candidate file-id list never change the final result: the filter is
id-membership based, so de-duplicating both collections first is
invisible. -/
theorem get_files_invariant_under_dedup (st : Store) (body : Option FilterArgs) :
    get_files st body = get_files_dedup st body := by
  cases body with
  | none => rfl
  | some args =>
    simp only [get_files, get_files_dedup]
    by_cases h : args.isTruthy = true
    · rw [if_pos h, if_pos h]
      apply congrArg
      apply List.filter_congr
      intro f _
      have hiff : f.id ∈ collectFileIds st (selectedProducts st args) ↔
          f.id ∈ (collectFileIds st (selectedProducts st args).dedup).dedup := by
        rw [List.mem_dedup, mem_collectFileIds, mem_collectFileIds]
        simp [List.mem_dedup]
      rw [decide_eq_decide.mpr hiff]
    · rw [if_neg h, if_neg h]

/-- C10: a request body that is falsy in Python — no JSON at all, or an
empty JSON object — takes the `File.query.all()` branch: every file row is
returned, unlike a nonempty payload without `product_ids`/`experiment_ids`,
which returns nothing. -/
theorem falsy_body_returns_all_files (st : Store) (body : Option FilterArgs)
    (h : bodyTruthy body = false) :
    get_files st body = st.files.map File.serialize := by
  cases body with
  | none => rfl
  | some args =>
    simp only [bodyTruthy] at h
    simp only [get_files]
    rw [if_neg]
    rw [h]
    exact Bool.false_ne_true

/-- C10 witness: the empty JSON object on the demo store returns both file
rows, despite selecting no products. -/
theorem falsy_body_returns_all_files_witness :
    get_files demoStore (some ⟨none, none, none, none⟩) =
      [⟨1, "f1", "2020-01-01 00:00:00", "L2", 1⟩, ⟨2, "f2", "2021-06-01 00:00:00", "L2", 1⟩] :=
  (falsy_body_returns_all_files demoStore (some ⟨none, none, none, none⟩) (by decide)).trans
    (by decide)

/-- C4 (code bug): evaluating every Get/Update/Delete handler at an id that
is absent from the store (id 5 on the demo store, whose ids are 1 and 2):
each one dereferences the `None` lookup result and dies with an uncaught
exception (`Err.unhandled`, a 500 server fault) instead of issuing the
checked NotFound (`abort(404)`) response the spec requires; no handler
contains any existence check. -/
theorem missing_id_is_unhandled_fault :
    get_experiment demoStore 5 = .error .unhandled ∧
      update_experiment demoStore 5 ⟨some ("n"), none⟩ = (demoStore, .error .unhandled) ∧
      delete_experiment demoStore 5 = (demoStore, .error .unhandled) ∧
      get_product demoStore 5 = .error .unhandled ∧
      update_product demoStore 5 ⟨some ("n"), none, none⟩ = (demoStore, .error .unhandled) ∧
      delete_product demoStore 5 = (demoStore, .error .unhandled) ∧
      get_file demoStore 5 = .error .unhandled ∧
      update_file demoStore 5 ⟨some ("q"), none, none, none⟩ = (demoStore, .error .unhandled) ∧
      delete_file demoStore 5 = (demoStore, .error .unhandled) := by
  decide

/-- C5: a Create input missing any required field (experiment without
`name`; product without `name` or `experiment_id`; file without `path` or
`product_id`) — or a falsy body — is rejected with BadRequest before any
construction or insert, and the store comes back exactly unchanged. -/
theorem create_missing_required_field_rejected (st : Store) :
    (create_experiment st none = (st, .error .badRequest) ∧
      ∀ j : ExperimentInput, j.name = none →
        create_experiment st (some j) = (st, .error .badRequest)) ∧
    (create_product st none = (st, .error .badRequest) ∧
      ∀ j : ProductInput, j.name = none ∨ j.experiment_id = none →
        create_product st (some j) = (st, .error .badRequest)) ∧
    (create_file st none = (st, .error .badRequest) ∧
      ∀ j : FileInput, j.path = none ∨ j.product_id = none →
        create_file st (some j) = (st, .error .badRequest)) := by
  refine ⟨⟨rfl, ?_⟩, ⟨rfl, ?_⟩, ⟨rfl, ?_⟩⟩
  · intro j h
    simp only [create_experiment, h]
  · intro j h
    rcases h with h | h <;>
      rcases hn : j.name with _ | n <;> rcases he : j.experiment_id with _ | eid <;>
      simp_all [create_product]
  · intro j h
    rcases h with h | h <;>
      rcases hn : j.path with _ | pa <;> rcases he : j.product_id with _ | pid <;>
      simp_all [create_file]

/-- C5 witness: creating a product without a `name` on the demo store is a
BadRequest and inserts nothing. -/
theorem create_missing_required_field_rejected_witness :
    create_product demoStore (some ⟨none, some ("d"), some 1⟩) =
      (demoStore, .error .badRequest) :=
  (create_missing_required_field_rejected demoStore).2.1.2 ⟨none, some ("d"), some 1⟩
    (Or.inl rfl)

/-- C6 (code bug): a file create or update whose `dateTime` text does not
parse under `%Y-%m-%d %H:%M:%S` dies with the uncaught `ValueError` from
`strptime` (`Err.unhandled`, a 500 server fault) rather than the BadRequest
the spec requires; the store comes back unchanged on both paths (the
exception fires before any insert or commit). -/
theorem malformed_datetime_is_unhandled_fault :
    strptime ("not-a-date") = none ∧
      create_file demoStore (some ⟨some ("p3"), some ("not-a-date"), none, some 1⟩) =
        (demoStore, .error .unhandled) ∧
      update_file demoStore 1 ⟨some ("q"), some ("not-a-date"), none, none⟩ =
        (demoStore, .error .unhandled) := by
  decide

/-- Mapping a function that fixes every element the predicate accepts, and
preserves the predicate's verdict elsewhere, leaves `find?` alone. -/
theorem find?_map_fixed {α : Type} (p : α → Bool) (f : α → α) :
    ∀ l : List α, (∀ r ∈ l, p (f r) = p r ∧ (p r = true → f r = r)) →
      (l.map f).find? p = l.find? p := by
  intro l
  induction l with
  | nil => intro _; rfl
  | cons hd tl ih =>
    intro h
    obtain ⟨h1, h2⟩ := h hd (List.mem_cons_self hd tl)
    by_cases hp : p hd = true
    · rw [List.map_cons, List.find?_cons_of_pos _ (h1.trans hp),
        List.find?_cons_of_pos _ hp, h2 hp]
    · rw [List.map_cons, List.find?_cons_of_neg _ (fun hc => hp (h1 ▸ hc)),
        List.find?_cons_of_neg _ hp, ih fun a ha => h a (List.mem_cons_of_mem hd ha)]

/-- Mapping a function that sends every element the predicate accepts to a
fixed replacement (still accepted), and preserves the verdict elsewhere,
replaces the found element. -/
theorem find?_map_replaced {α : Type} (p : α → Bool) (f : α → α) (e' : α) :
    ∀ l : List α, (∀ r ∈ l, p (f r) = p r ∧ (p r = true → f r = e')) →
      (l.map f).find? p = (l.find? p).map fun _ => e' := by
  intro l
  induction l with
  | nil => intro _; rfl
  | cons hd tl ih =>
    intro h
    obtain ⟨h1, h2⟩ := h hd (List.mem_cons_self hd tl)
    by_cases hp : p hd = true
    · rw [List.map_cons, List.find?_cons_of_pos _ (h1.trans hp),
        List.find?_cons_of_pos _ hp, h2 hp]
      rfl
    · rw [List.map_cons, List.find?_cons_of_neg _ (fun hc => hp (h1 ▸ hc)),
        List.find?_cons_of_neg _ hp, ih fun a ha => h a (List.mem_cons_of_mem hd ha)]

/-- The keyed-row update `map (fun r => if key r = id then e' else r)`, as
performed by committing a mutated ORM row: the row found at `id` becomes
`e'`, and lookups at every other key are untouched. -/
theorem update_row_find? {α : Type} (l : List α) (key : α → Nat) (id : Nat) (e e' : α)
    (hfind : l.find? (fun r => decide (key r = id)) = some e)
    (hkey : key e' = key e) :
    (l.map fun r => if key r = id then e' else r).find? (fun r => decide (key r = id)) =
        some e' ∧
      ∀ id2, id2 ≠ id →
        (l.map fun r => if key r = id then e' else r).find? (fun r => decide (key r = id2)) =
          l.find? (fun r => decide (key r = id2)) := by
  have hkeyE : key e = id := by
    have h := List.find?_some hfind
    simpa using h
  have hcond : ∀ r ∈ l,
      decide (key (if key r = id then e' else r) = id) = decide (key r = id) ∧
        (decide (key r = id) = true → (if key r = id then e' else r) = e') := by
    intro r _
    constructor
    · by_cases h : key r = id
      · rw [if_pos h]
        simp [hkey, hkeyE, h]
      · rw [if_neg h]
    · intro hp
      rw [if_pos (of_decide_eq_true hp)]
  constructor
  · rw [find?_map_replaced (fun r => decide (key r = id))
      (fun r => if key r = id then e' else r) e' l hcond, hfind]
    rfl
  · intro id2 hne
    apply find?_map_fixed
    intro r _
    constructor
    · by_cases h : key r = id
      · rw [if_pos h]
        simp [hkey, hkeyE, h]
      · rw [if_neg h]
    · intro hp
      have hr2 : key r = id2 := of_decide_eq_true hp
      rw [if_neg (fun hc => hne (hr2 ▸ hc))]

/-- C7: for every existing row and every update input, exactly the fields
present in the input are overwritten (`request.json.get(key, current)`),
absent fields keep their stored values, the row keeps its id, lookups at
every other id are unchanged, and the other two tables are untouched —
stated for all three entity types (for File, a present `dateTime` must
parse, otherwise the update dies before committing, see the C6 theorem). -/
theorem update_overwrites_present_keeps_absent :
    (∀ (st : Store) (id : Nat) (j : ExperimentInput) (e : Experiment),
      st.experiments.find? (fun r => decide (r.id = id)) = some e →
      (update_experiment st id j).2 =
          .ok (Experiment.serialize ⟨e.id, j.name.getD e.name, j.desc.getD e.desc⟩) ∧
        (update_experiment st id j).1.products = st.products ∧
        (update_experiment st id j).1.files = st.files ∧
        (update_experiment st id j).1.experiments.find? (fun r => decide (r.id = id)) =
          some ⟨e.id, j.name.getD e.name, j.desc.getD e.desc⟩ ∧
        ∀ id2, id2 ≠ id →
          (update_experiment st id j).1.experiments.find? (fun r => decide (r.id = id2)) =
            st.experiments.find? (fun r => decide (r.id = id2))) ∧
    (∀ (st : Store) (id : Nat) (j : ProductInput) (p : Product),
      st.products.find? (fun r => decide (r.id = id)) = some p →
      (update_product st id j).2 =
          .ok (Product.serialize
            ⟨p.id, j.name.getD p.name, j.desc.getD p.desc,
              j.experiment_id.getD p.experiment_id⟩) ∧
        (update_product st id j).1.experiments = st.experiments ∧
        (update_product st id j).1.files = st.files ∧
        (update_product st id j).1.products.find? (fun r => decide (r.id = id)) =
          some ⟨p.id, j.name.getD p.name, j.desc.getD p.desc,
            j.experiment_id.getD p.experiment_id⟩ ∧
        ∀ id2, id2 ≠ id →
          (update_product st id j).1.products.find? (fun r => decide (r.id = id2)) =
            st.products.find? (fun r => decide (r.id = id2))) ∧
    (∀ (st : Store) (id : Nat) (j : FileInput) (f : File) (t : DateTime),
      st.files.find? (fun r => decide (r.id = id)) = some f →
      (j.dateTime = none ∧ t = f.dateTime ∨
        ∃ s, j.dateTime = some s ∧ strptime s = some t) →
      (update_file st id j).2 =
          .ok (File.serialize
            ⟨f.id, j.path.getD f.path, t, j.level.getD f.level,
              j.product_id.getD f.product_id⟩) ∧
        (update_file st id j).1.experiments = st.experiments ∧
        (update_file st id j).1.products = st.products ∧
        (update_file st id j).1.files.find? (fun r => decide (r.id = id)) =
          some ⟨f.id, j.path.getD f.path, t, j.level.getD f.level,
            j.product_id.getD f.product_id⟩ ∧
        ∀ id2, id2 ≠ id →
          (update_file st id j).1.files.find? (fun r => decide (r.id = id2)) =
            st.files.find? (fun r => decide (r.id = id2))) := by
  refine ⟨?_, ?_, ?_⟩
  · intro st id j e hfind
    obtain ⟨h4, h5⟩ := update_row_find? st.experiments Experiment.id id e
      ⟨e.id, j.name.getD e.name, j.desc.getD e.desc⟩ hfind rfl
    simp only [update_experiment, hfind]
    exact ⟨trivial, trivial, trivial, h4, h5⟩
  · intro st id j p hfind
    obtain ⟨h4, h5⟩ := update_row_find? st.products Product.id id p
      ⟨p.id, j.name.getD p.name, j.desc.getD p.desc, j.experiment_id.getD p.experiment_id⟩
      hfind rfl
    simp only [update_product, hfind]
    exact ⟨trivial, trivial, trivial, h4, h5⟩
  · intro st id j f t hfind hdt
    rcases hdt with ⟨hnone, ht⟩ | ⟨s, hsome, hparse⟩
    · subst ht
      obtain ⟨h4, h5⟩ := update_row_find? st.files File.id id f
        ⟨f.id, j.path.getD f.path, f.dateTime, j.level.getD f.level,
          j.product_id.getD f.product_id⟩
        hfind rfl
      simp only [update_file, hfind, hnone]
      exact ⟨trivial, trivial, trivial, h4, h5⟩
    · obtain ⟨h4, h5⟩ := update_row_find? st.files File.id id f
        ⟨f.id, j.path.getD f.path, t, j.level.getD f.level, j.product_id.getD f.product_id⟩
        hfind rfl
      simp only [update_file, hfind, hsome, hparse]
      exact ⟨trivial, trivial, trivial, h4, h5⟩

/-- C7 witness: updating only `desc` on experiment 1 of the demo store
changes `desc`, keeps `name`, and leaves the product table alone. -/
theorem update_overwrites_present_keeps_absent_witness :
    (update_experiment demoStore 1 ⟨none, some ("d2")⟩).2 =
        .ok (Experiment.serialize ⟨1, "E1", "d2"⟩) ∧
      (update_experiment demoStore 1 ⟨none, some ("d2")⟩).1.products = demoStore.products := by
  have h := update_overwrites_present_keeps_absent.1 demoStore 1 ⟨none, some ("d2")⟩
    ⟨1, "E1", "exp one"⟩ (by decide)
  exact ⟨h.1, h.2.1⟩

theorem toList_mk (l : List Char) : (String.mk l).toList = l := rfl

/-- Reading back a rendered digit. -/
theorem readDigit_ofNat (d : Nat) (hd : d < 10) : readDigit (Char.ofNat (48 + d)) = some d := by
  interval_cases d <;> decide

/-- `read4` consumes exactly a zero-padded four-digit year. -/
theorem read4_pad4 (n : Nat) (hn : n ≤ 9999) (r : List Char) :
    read4 (pad4 n ++ r) = some (n, r) := by
  have h1 := readDigit_ofNat (n / 1000 % 10) (Nat.mod_lt _ (by norm_num))
  have h2 := readDigit_ofNat (n / 100 % 10) (Nat.mod_lt _ (by norm_num))
  have h3 := readDigit_ofNat (n / 10 % 10) (Nat.mod_lt _ (by norm_num))
  have h4 := readDigit_ofNat (n % 10) (Nat.mod_lt _ (by norm_num))
  have hval : (((n / 1000 % 10) * 10 + n / 100 % 10) * 10 + n / 10 % 10) * 10 + n % 10 = n := by
    omega
  simp [pad4, read4, h1, h2, h3, h4, hval]

/-- `read2` consumes exactly a zero-padded two-digit field. -/
theorem read2_pad2 (n : Nat) (hn : n ≤ 99) (r : List Char) :
    read2 (pad2 n ++ r) = some (n, r) := by
  have h1 := readDigit_ofNat (n / 10 % 10) (Nat.mod_lt _ (by norm_num))
  have h2 := readDigit_ofNat (n % 10) (Nat.mod_lt _ (by norm_num))
  have hval : (n / 10 % 10) * 10 + n % 10 = n := by omega
  simp [pad2, read2, h1, h2, hval]

theorem expectChar_cons (c : Char) (r : List Char) : expectChar c (c :: r) = some r := by
  simp [expectChar]

/-- Whatever the month and year, `daysInMonth` is at most 31. -/
theorem daysInMonth_le (y m : Nat) : daysInMonth y m ≤ 31 := by
  unfold daysInMonth
  split_ifs <;> omega

/-- Any timestamp produced by `strptime` satisfies the validation bounds. -/
theorem strptime_bounds {s : String} {t : DateTime} (h : strptime s = some t) :
    1 ≤ t.year ∧ t.year ≤ 9999 ∧ 1 ≤ t.month ∧ t.month ≤ 12 ∧ 1 ≤ t.day ∧
      t.day ≤ daysInMonth t.year t.month ∧ t.hour ≤ 23 ∧ t.minute ≤ 59 ∧ t.second ≤ 59 := by
  unfold strptime at h
  repeat' split at h
  all_goals try exact Option.noConfusion h
  rename_i hcond
  cases h
  simp only [Bool.and_eq_true, decide_eq_true_eq] at hcond
  obtain ⟨⟨⟨⟨⟨⟨⟨⟨⟨-, c1⟩, c2⟩, c3⟩, c4⟩, c5⟩, c6⟩, c7⟩, c8⟩, c9⟩ := hcond
  exact ⟨c1, c2, c3, c4, c5, c6, c7, c8, c9⟩

/-- Printing a valid timestamp with `str(...)` and re-parsing it with
`strptime` round-trips. -/
theorem strptime_strDateTime (t : DateTime)
    (h1 : 1 ≤ t.year) (h2 : t.year ≤ 9999) (h3 : 1 ≤ t.month) (h4 : t.month ≤ 12)
    (h5 : 1 ≤ t.day) (h6 : t.day ≤ daysInMonth t.year t.month)
    (h7 : t.hour ≤ 23) (h8 : t.minute ≤ 59) (h9 : t.second ≤ 59) :
    strptime (strDateTime t) = some t := by
  have htl : (strDateTime t).toList =
      pad4 t.year ++ '-' :: (pad2 t.month ++ '-' :: (pad2 t.day ++ ' ' :: (pad2 t.hour
        ++ ':' :: (pad2 t.minute ++ ':' :: (pad2 t.second ++ ([] : List Char)))))) := by
    rw [strDateTime, toList_mk]
    simp
  have hd99 : t.day ≤ 99 := le_trans h6 (le_trans (daysInMonth_le t.year t.month) (by norm_num))
  simp only [strptime, htl, read4_pad4 t.year h2, expectChar_cons,
    read2_pad2 t.month (by omega), read2_pad2 t.day hd99, read2_pad2 t.hour (by omega),
    read2_pad2 t.minute (by omega), read2_pad2 t.second (by omega)]
  simp [h1, h2, h3, h4, h5, h6, h7, h8, h9]

/-- C8: for every valid Create input, the serialized entity returned by
Create and the serialized entity obtained by re-reading the assigned id are
identical; for File, `dateTime` is stored as the parsed timestamp — never
as raw text — and serialized back to the canonical `YYYY-MM-DD HH:MM:SS`
string, which re-parses to the very same timestamp (round trip after
canonical-string normalization). -/
theorem create_read_roundtrip :
    (∀ (st : Store) (j : ExperimentInput) (n : String), st.wf → j.name = some n →
      ∃ st1 out, create_experiment st (some j) = (st1, .ok out) ∧
        get_experiment st1 out.id = .ok out) ∧
    (∀ (st : Store) (j : ProductInput) (n : String) (eid : Nat), st.wf →
      j.name = some n → j.experiment_id = some eid →
      ∃ st1 out, create_product st (some j) = (st1, .ok out) ∧
        get_product st1 out.id = .ok out) ∧
    (∀ (st : Store) (j : FileInput) (pa : String) (pid : Nat) (t : DateTime), st.wf →
      j.path = some pa → j.product_id = some pid →
      strptime (j.dateTime.getD ("1900-01-01 00:00:00")) = some t →
      ∃ st1 out, create_file st (some j) = (st1, .ok out) ∧
        get_file st1 out.id = .ok out ∧
        out.dateTime = strDateTime t ∧ strptime out.dateTime = some t) := by
  refine ⟨?_, ?_, ?_⟩
  · intro st j n hwf hname
    refine ⟨{ st with
        experiments := st.experiments ++ [⟨st.nextExperimentId, n, j.desc.getD ("")⟩]
        nextExperimentId := st.nextExperimentId + 1 },
      ⟨st.nextExperimentId, n, j.desc.getD ("")⟩, ?_, ?_⟩
    · simp only [create_experiment, hname]
      rfl
    · have hnone : st.experiments.find? (fun r => decide (r.id = st.nextExperimentId)) =
          none :=
        List.find?_eq_none.mpr fun x hx => by
          simp only [decide_eq_true_eq]
          exact Nat.ne_of_lt (hwf.1 x hx)
      dsimp only [get_experiment]
      rw [List.find?_append, hnone]
      simp [Experiment.serialize]
  · intro st j n eid hwf hname heid
    refine ⟨{ st with
        products := st.products ++ [⟨st.nextProductId, n, j.desc.getD (""), eid⟩]
        nextProductId := st.nextProductId + 1 },
      ⟨st.nextProductId, n, j.desc.getD (""), eid⟩, ?_, ?_⟩
    · simp only [create_product, hname, heid]
      rfl
    · have hnone : st.products.find? (fun r => decide (r.id = st.nextProductId)) = none :=
        List.find?_eq_none.mpr fun x hx => by
          simp only [decide_eq_true_eq]
          exact Nat.ne_of_lt (hwf.2.1 x hx)
      dsimp only [get_product]
      rw [List.find?_append, hnone]
      simp [Product.serialize]
  · intro st j pa pid t hwf hpath hpid hparse
    obtain ⟨b1, b2, b3, b4, b5, b6, b7, b8, b9⟩ := strptime_bounds hparse
    refine ⟨{ st with
        files := st.files ++ [⟨st.nextFileId, pa, t, j.level.getD (""), pid⟩]
        nextFileId := st.nextFileId + 1 },
      ⟨st.nextFileId, pa, strDateTime t, j.level.getD (""), pid⟩, ?_, ?_, rfl, ?_⟩
    · simp only [create_file, hpath, hpid, hparse]
      rfl
    · have hnone : st.files.find? (fun r => decide (r.id = st.nextFileId)) = none :=
        List.find?_eq_none.mpr fun x hx => by
          simp only [decide_eq_true_eq]
          exact Nat.ne_of_lt (hwf.2.2 x hx)
      dsimp only [get_file]
      rw [List.find?_append, hnone]
      simp [File.serialize]
    · exact strptime_strDateTime t b1 b2 b3 b4 b5 b6 b7 b8 b9

/-- C8 witness: creating a file on the demo store with timestamp
`2022-03-04 05:06:07` and re-reading it by its assigned id returns the same
serialization, whose `dateTime` text re-parses to the stored timestamp. -/
theorem create_read_roundtrip_witness :
    ∃ st1 out,
      create_file demoStore
          (some ⟨some ("p3"), some ("2022-03-04 05:06:07"), some ("L1"), some 1⟩) =
        (st1, .ok out) ∧
      get_file st1 out.id = .ok out ∧
      out.dateTime = strDateTime ⟨2022, 3, 4, 5, 6, 7⟩ ∧
      strptime out.dateTime = some ⟨2022, 3, 4, 5, 6, 7⟩ :=
  create_read_roundtrip.2.2 demoStore
    ⟨some ("p3"), some ("2022-03-04 05:06:07"), some ("L1"), some 1⟩
    "p3" 1 ⟨2022, 3, 4, 5, 6, 7⟩ (by decide) rfl rfl (by decide)

end CCI
